import Mathlib

/-!
Verification of the head-pose inference unit of `ros2_openvino_toolkit`
(`dynamic_vino_lib/include/dynamic_vino_lib/inferences/head_pose_detection.hpp`).

The repository sources contain the class declarations of `HeadPoseResult` and
`HeadPoseDetection` (with the sentinel default initialisers `angle_y_ = -1`,
`angle_p_ = -1`, `angle_r_ = -1` and the inline body of `getResults`, which
returns `results_` by value).  The bodies of `enqueue`, `submitRequest`,
`fetchResults`, `getResultsLength` and `getLocationResult`, as well as the
`Result` base class and the `BaseInference` helpers they call, live in files
that are not part of the sources; those parts are modelled from the
specification, as marked on each definition.

Machine integers (`int` coordinates of `cv::Rect`, `cv::Mat` dimensions) are
modelled as `Int`; no arithmetic that could overflow is performed on them.
The `float` pose angles are modelled as `Int`: the development performs no
floating-point arithmetic on them, only assignment from the engine's output
blob and comparison with the exact sentinel value `-1`, both of which are
exact in IEEE-754 as well.
-/

namespace DynamicVino

/-- Shallow embedding of `cv::Rect` (integer coordinates: `x`, `y`, `width`,
`height`). -/
structure Rect where
  x : Int
  y : Int
  width : Int
  height : Int
deriving DecidableEq, Repr

/-- Shallow embedding of the part of `cv::Mat` the inference unit consults:
the frame dimensions (`cols` × `rows`). -/
structure Frame where
  cols : Int
  rows : Int
deriving DecidableEq, Repr

/-- Modelled from the spec: the `Models::HeadPoseDetectionModel` collaborator
(its header is not part of the sources).  The spec's Model adapter exposes
`maxBatchSize`, the only model attribute the claims consult. -/
structure HeadPoseModel where
  maxBatchSize : Nat
deriving DecidableEq, Repr

/-- Shallow embedding of `HeadPoseResult`: the `location` rectangle carried by
the `Result` base class (base class body not in the sources; the spec says a
Result "always carries the location it was given at construction") plus the
three angle fields `angle_y_`, `angle_p_`, `angle_r_` declared in the header. -/
structure HeadPoseResult where
  location_ : Rect
  angle_y_ : Int
  angle_p_ : Int
  angle_r_ : Int
deriving DecidableEq, Repr

/-- The constructor `HeadPoseResult(const cv::Rect & location)`: the location
is stored (spec: a freshly constructed Result carries the location given at
construction) and the angle fields keep their default member initialisers
`-1` from the header (the sentinel meaning "not yet computed"). -/
def HeadPoseResult.ofLocation (location : Rect) : HeadPoseResult :=
  { location_ := location, angle_y_ := -1, angle_p_ := -1, angle_r_ := -1 }

/-- Modelled from the spec: one slot of the engine's named output blobs for a
head-pose request — the three scalars (yaw, pitch, roll) produced for one
processed region (`head_pose_detection.cpp` is not part of the sources). -/
structure HeadPoseAngles where
  y : Int
  p : Int
  r : Int
deriving DecidableEq, Repr

/-- Shallow embedding of the `HeadPoseDetection` state: the bound model
(`valid_model_`, header line 137), the pending enqueued regions (the spec's
"Enqueued region" transient data, kept in enqueue order), whether an
inference request is outstanding (the spec's `Submitted` state), and the
result buffer (`results_`, header line 138). -/
structure HeadPoseDetection where
  valid_model_ : Option HeadPoseModel
  enqueued_regions_ : List Rect
  request_outstanding_ : Bool
  results_ : List HeadPoseResult
deriving DecidableEq, Repr

/-- Modelled from the spec: the freshly constructed unit (constructor body not
in the sources) — no Model bound, no pending regions, no outstanding request,
empty result buffer (`getResultsLength()` is "0 after construction"). -/
def HeadPoseDetection.init : HeadPoseDetection :=
  { valid_model_ := none
    enqueued_regions_ := []
    request_outstanding_ := false
    results_ := [] }

/-- Modelled from the spec: `loadNetwork` binds the Model to the unit ("at most
one bound Model, set once via `loadNetwork`"); the body is not in the
sources. -/
def HeadPoseDetection.loadNetwork (s : HeadPoseDetection) (m : HeadPoseModel) :
    HeadPoseDetection :=
  { s with valid_model_ := some m }

/-- The model-defined maximum batch capacity of the unit.  When no Model is
loaded the spec defines no capacity; the capacity is taken as zero, so
`enqueue` cannot buffer regions before `loadNetwork`. -/
def HeadPoseDetection.maxBatchSize (s : HeadPoseDetection) : Nat :=
  match s.valid_model_ with
  | some m => m.maxBatchSize
  | none => 0

/-- Modelled from the spec: the geometry check of `enqueue` — the region of
interest must have positive extent in both directions (not "degenerate (zero
area)") and must lie inside the frame bounds (a region "whose crop would
exceed the source frame bounds is rejected at enqueue"). -/
def Rect.validIn (roi : Rect) (f : Frame) : Bool :=
  decide (0 < roi.width) && decide (0 < roi.height) &&
  decide (0 ≤ roi.x) && decide (0 ≤ roi.y) &&
  decide (roi.x + roi.width ≤ f.cols) && decide (roi.y + roi.height ≤ f.rows)

/-- Modelled from the spec: the body of `HeadPoseDetection::enqueue`
(`head_pose_detection.cpp` and the `BaseInference::enqueue` template it calls
are not in the sources).  Fails, leaving the state unchanged, when the buffer
is already at the model-defined maximum batch capacity or when the region is
degenerate or out of bounds; otherwise appends the region to the pending list
and returns `true`.  The Engine is not consulted (spec: "does not touch the
Engine"), so the model takes no engine input here. -/
def HeadPoseDetection.enqueue (s : HeadPoseDetection) (frame : Frame) (roi : Rect) :
    Bool × HeadPoseDetection :=
  if decide (s.enqueued_regions_.length < s.maxBatchSize) && roi.validIn frame then
    (true, { s with enqueued_regions_ := s.enqueued_regions_ ++ [roi] })
  else
    (false, s)

/-- Modelled from the spec: the body of `HeadPoseDetection::submitRequest`
(not in the sources).  Fails, leaving the state unchanged, when no regions
are buffered, when no Model is loaded, or when the Engine rejects the request;
the Engine's accept/reject decision is an input (`engineAccepts`) since the
Engine is an external collaborator.  On success the request becomes
outstanding and the buffered regions stay associated with it. -/
def HeadPoseDetection.submitRequest (s : HeadPoseDetection) (engineAccepts : Bool) :
    Bool × HeadPoseDetection :=
  if s.enqueued_regions_.isEmpty || s.valid_model_.isNone || !engineAccepts then
    (false, s)
  else
    (true, { s with request_outstanding_ := true })

/-- Modelled from the spec: decoding one Result during `fetchResults` — the
Result is created from the originally enqueued frame-space rectangle (angles
default-initialised to the sentinel) and its angle attributes are then
overwritten, exactly once, with the engine's output scalars for that slot. -/
def HeadPoseDetection.decodeResult (roi : Rect) (a : HeadPoseAngles) : HeadPoseResult :=
  let fresh := HeadPoseResult.ofLocation roi
  { fresh with angle_y_ := a.y, angle_p_ := a.p, angle_r_ := a.r }

/-- Modelled from the spec: the decoding loop of `fetchResults` — output
tensor slot `i` of the engine's blob is mapped to pending region `i` in
enqueue order (`i` counted from `firstSlot`, which the top-level call fixes
at 0). -/
def HeadPoseDetection.decodeAll (blob : Nat → HeadPoseAngles) :
    Nat → List Rect → List HeadPoseResult
  | _, [] => []
  | firstSlot, roi :: rest =>
      HeadPoseDetection.decodeResult roi (blob firstSlot) ::
        HeadPoseDetection.decodeAll blob (firstSlot + 1) rest

/-- Modelled from the spec: the body of `HeadPoseDetection::fetchResults`
(not in the sources).  The Engine's completion is an input: `none` when the
wait times out or the request produced no new output, `some blob` when the
request completed with output blob `blob`.  With no outstanding request the
call fails and the state — in particular the result buffer — is unchanged.
A timed-out fetch fails, discards the outstanding request and returns the
unit to `Idle` with an empty result buffer.  On success the pending-region
list is cleared and the result buffer is replaced wholesale by one decoded
Result per buffered region, in enqueue order. -/
def HeadPoseDetection.fetchResults (s : HeadPoseDetection)
    (engineOutput : Option (Nat → HeadPoseAngles)) : Bool × HeadPoseDetection :=
  if !s.request_outstanding_ then
    (false, s)
  else
    match engineOutput with
    | none =>
        (false, { s with
                  request_outstanding_ := false
                  enqueued_regions_ := []
                  results_ := [] })
    | some blob =>
        (true, { s with
                 request_outstanding_ := false
                 enqueued_regions_ := []
                 results_ := HeadPoseDetection.decodeAll blob 0 s.enqueued_regions_ })

/-- Modelled from the spec: the body of `getResultsLength` (not in the
sources) — the number of Results currently held.  The method is declared
`const` in the header; the call is modelled as returning the value together
with the (unchanged) state of the unit. -/
def HeadPoseDetection.getResultsLength (s : HeadPoseDetection) :
    Int × HeadPoseDetection :=
  ((s.results_.length : Int), s)

/-- Modelled from the spec: the body of `getLocationResult` (not in the
sources) — a borrowed view of the Result at the given index, `none` for an
out-of-range index (the spec leaves out-of-range undefined/failing; the C++
`int` index is modelled as `Nat`, a negative index being part of the same
undefined case).  Declared `const` in the header; modelled as returning the
value together with the unchanged state. -/
def HeadPoseDetection.getLocationResult (s : HeadPoseDetection) (idx : Nat) :
    Option HeadPoseResult × HeadPoseDetection :=
  (s.results_.get? idx, s)

/-- The inline body of `getResults` from the header (line 131): returns
`results_` by value — the caller receives a snapshot copy of the result
buffer; the unit's state is unchanged. -/
def HeadPoseDetection.getResults (s : HeadPoseDetection) :
    List HeadPoseResult × HeadPoseDetection :=
  (s.results_, s)

/-- Folding a sequence of `enqueue` calls over a state, ignoring the success
flags (each call is a `(frame, regionOfInterest)` pair). -/
def HeadPoseDetection.enqueueAll (s : HeadPoseDetection) :
    List (Frame × Rect) → HeadPoseDetection
  | [] => s
  | c :: rest => ((s.enqueue c.1 c.2).2).enqueueAll rest

/-- A concrete unit whose pending buffer is already at its capacity of 1,
used to exercise the rejection branch of `enqueue`. -/
def fullUnit : HeadPoseDetection :=
  { valid_model_ := some ⟨1⟩
    enqueued_regions_ := [⟨0, 0, 5, 5⟩]
    request_outstanding_ := false
    results_ := [] }

/-- A concrete unit with one buffered region and an outstanding request, used
to exercise the timeout branch of `fetchResults`. -/
def submittedUnit : HeadPoseDetection :=
  { valid_model_ := some ⟨2⟩
    enqueued_regions_ := [⟨10, 10, 50, 50⟩]
    request_outstanding_ := true
    results_ := [] }

/-- The frame of the two-region scenario of the spec (any bounds that contain
both regions work; 640×480 is a common capture size). -/
def frameF : Frame := ⟨640, 480⟩

/-- The first region of the two-region scenario: `R1 = (10, 10, 50, 50)`. -/
def rectR1 : Rect := ⟨10, 10, 50, 50⟩

/-- The second region of the two-region scenario: `R2 = (100, 20, 40, 40)`. -/
def rectR2 : Rect := ⟨100, 20, 40, 40⟩

/-- The enqueue calls of the two-region scenario. -/
def callsTwo : List (Frame × Rect) := [(frameF, rectR1), (frameF, rectR2)]

/-- A concrete engine output blob: every slot carries the angles
(yaw 30, pitch 20, roll 10). -/
def blobConst : Nat → HeadPoseAngles := fun _ => ⟨30, 20, 10⟩

/-- The state of the unit after the full two-region cycle of the spec:
construct, load a model of batch capacity 2, enqueue `R1` and `R2` from frame
`F`, submit (engine accepts), fetch (engine completes with output `blob`). -/
def twoRegionCycle (blob : Nat → HeadPoseAngles) : HeadPoseDetection :=
  (((((HeadPoseDetection.init.loadNetwork ⟨2⟩).enqueue frameF rectR1).2.enqueue
      frameF rectR2).2.submitRequest true).2.fetchResults (some blob)).2

/-- The states of the inference unit reachable from construction through its
public operations (with arbitrary Engine behaviour as input). -/
inductive Reach : HeadPoseDetection → Prop
  | init : Reach HeadPoseDetection.init
  | loadNetwork (s : HeadPoseDetection) (m : HeadPoseModel) :
      Reach s → Reach (s.loadNetwork m)
  | enqueue (s : HeadPoseDetection) (f : Frame) (r : Rect) :
      Reach s → Reach ((s.enqueue f r).2)
  | submitRequest (s : HeadPoseDetection) (b : Bool) :
      Reach s → Reach ((s.submitRequest b).2)
  | fetchResults (s : HeadPoseDetection) (o : Option (Nat → HeadPoseAngles)) :
      Reach s → Reach ((s.fetchResults o).2)

/-! Helper lemmas shared by the claim theorems. -/

theorem enqueue_results_eq (s : HeadPoseDetection) (f : Frame) (r : Rect) :
    ((s.enqueue f r).2).results_ = s.results_ := by
  unfold HeadPoseDetection.enqueue
  split <;> rfl

theorem enqueue_model_eq (s : HeadPoseDetection) (f : Frame) (r : Rect) :
    ((s.enqueue f r).2).valid_model_ = s.valid_model_ := by
  unfold HeadPoseDetection.enqueue
  split <;> rfl

theorem enqueue_outstanding_eq (s : HeadPoseDetection) (f : Frame) (r : Rect) :
    ((s.enqueue f r).2).request_outstanding_ = s.request_outstanding_ := by
  unfold HeadPoseDetection.enqueue
  split <;> rfl

theorem enqueueAll_results_eq (calls : List (Frame × Rect)) (s : HeadPoseDetection) :
    (s.enqueueAll calls).results_ = s.results_ := by
  induction calls generalizing s with
  | nil => rfl
  | cons c rest ih =>
      calc (s.enqueueAll (c :: rest)).results_
          = (((s.enqueue c.1 c.2).2).enqueueAll rest).results_ := rfl
        _ = ((s.enqueue c.1 c.2).2).results_ := ih _
        _ = s.results_ := enqueue_results_eq s c.1 c.2

/-- Record updates that leave `valid_model_` alone leave the capacity alone. -/
theorem maxBatchSize_congr (s t : HeadPoseDetection)
    (h : t.valid_model_ = s.valid_model_) : t.maxBatchSize = s.maxBatchSize := by
  unfold HeadPoseDetection.maxBatchSize
  rw [h]

theorem enqueueAll_append (calls : List (Frame × Rect)) (s : HeadPoseDetection)
    (hcap : s.enqueued_regions_.length + calls.length ≤ s.maxBatchSize)
    (hval : ∀ c ∈ calls, (c.2).validIn c.1 = true) :
    (s.enqueueAll calls).enqueued_regions_ =
        s.enqueued_regions_ ++ calls.map Prod.snd ∧
    (s.enqueueAll calls).valid_model_ = s.valid_model_ ∧
    (s.enqueueAll calls).request_outstanding_ = s.request_outstanding_ ∧
    (s.enqueueAll calls).results_ = s.results_ := by
  induction calls generalizing s with
  | nil => exact ⟨by simp [HeadPoseDetection.enqueueAll], rfl, rfl, rfl⟩
  | cons c rest ih =>
      have hc : (c.2).validIn c.1 = true := hval c (List.mem_cons_self c rest)
      have hlt : s.enqueued_regions_.length < s.maxBatchSize := by
        simp only [List.length_cons] at hcap
        omega
      have hstep : s.enqueue c.1 c.2 =
          (true, { s with enqueued_regions_ := s.enqueued_regions_ ++ [c.2] }) := by
        unfold HeadPoseDetection.enqueue
        rw [if_pos]
        simp [hc, hlt]
      have hcap2 : (({ s with enqueued_regions_ := s.enqueued_regions_ ++ [c.2] } :
          HeadPoseDetection)).enqueued_regions_.length + rest.length ≤
          ({ s with enqueued_regions_ := s.enqueued_regions_ ++ [c.2] } :
            HeadPoseDetection).maxBatchSize := by
        have hmb : ({ s with enqueued_regions_ := s.enqueued_regions_ ++ [c.2] } :
            HeadPoseDetection).maxBatchSize = s.maxBatchSize := rfl
        rw [hmb]
        simp only [List.length_append, List.length_singleton, List.length_cons,
          List.length_nil] at hcap ⊢
        omega
      have hrest := ih _ hcap2 (fun d hd => hval d (List.mem_cons_of_mem c hd))
      have heq : s.enqueueAll (c :: rest) =
          (({ s with enqueued_regions_ := s.enqueued_regions_ ++ [c.2] } :
            HeadPoseDetection)).enqueueAll rest := by
        show ((s.enqueue c.1 c.2).2).enqueueAll rest = _
        rw [hstep]
      rw [heq]
      refine ⟨?_, hrest.2.1, hrest.2.2.1, hrest.2.2.2⟩
      rw [hrest.1]
      simp [List.append_assoc]

theorem decodeAll_length (blob : Nat → HeadPoseAngles) (j : Nat) (rs : List Rect) :
    (HeadPoseDetection.decodeAll blob j rs).length = rs.length := by
  induction rs generalizing j with
  | nil => rfl
  | cons r rest ih => simp [HeadPoseDetection.decodeAll, ih]

theorem decodeAll_get? (blob : Nat → HeadPoseAngles) (j : Nat) (rs : List Rect)
    (i : Nat) :
    (HeadPoseDetection.decodeAll blob j rs).get? i =
      (rs.get? i).map (fun r => HeadPoseDetection.decodeResult r (blob (j + i))) := by
  induction rs generalizing j i with
  | nil => simp [HeadPoseDetection.decodeAll]
  | cons r rest ih =>
      cases i with
      | zero => simp [HeadPoseDetection.decodeAll]
      | succ i =>
          simp only [HeadPoseDetection.decodeAll, List.get?_cons_succ, ih (j + 1) i]
          have : j + 1 + i = j + (i + 1) := by omega
          rw [this]

theorem decodeResult_location (r : Rect) (a : HeadPoseAngles) :
    (HeadPoseDetection.decodeResult r a).location_ = r := rfl

theorem decodeAll_location_mem (blob : Nat → HeadPoseAngles) (j : Nat)
    (rs : List Rect) (res : HeadPoseResult)
    (h : res ∈ HeadPoseDetection.decodeAll blob j rs) : res.location_ ∈ rs := by
  induction rs generalizing j with
  | nil => simp [HeadPoseDetection.decodeAll] at h
  | cons r rest ih =>
      simp only [HeadPoseDetection.decodeAll, List.mem_cons] at h
      rcases h with h | h
      · subst h
        exact List.mem_cons_self r rest
      · exact List.mem_cons_of_mem r (ih (j + 1) h)

/-! Claim theorems. -/

/-- C2: for every sequence of enqueue calls of length at most `maxBatchSize`
starting from the initial state (with the model loaded), and before any
successful `fetchResults`, `getResultsLength()` returns 0; it is also 0
immediately after construction. -/
theorem C2_results_empty_before_fetch (m : HeadPoseModel)
    (calls : List (Frame × Rect)) (_hlen : calls.length ≤ m.maxBatchSize) :
    ((((HeadPoseDetection.init.loadNetwork m).enqueueAll calls).getResultsLength).1
        = 0) ∧
    ((HeadPoseDetection.init.getResultsLength).1 = 0) := by
  constructor
  · unfold HeadPoseDetection.getResultsLength
    rw [enqueueAll_results_eq]
    rfl
  · rfl

/-- Witness for C2 at a concrete one-call sequence. -/
theorem C2_results_empty_before_fetch_witness :
    ((((HeadPoseDetection.init.loadNetwork ⟨2⟩).enqueueAll
        [(⟨640, 480⟩, ⟨10, 10, 50, 50⟩)]).getResultsLength).1 = 0) ∧
    ((HeadPoseDetection.init.getResultsLength).1 = 0) :=
  C2_results_empty_before_fetch ⟨2⟩ [(⟨640, 480⟩, ⟨10, 10, 50, 50⟩)] (by decide)

/-- C4: when the pending-region list already holds `maxBatchSize` regions, or
when the region of interest is degenerate or out of the frame bounds,
`enqueue` returns `false` and leaves the pending-region list (indeed the whole
state) unchanged; otherwise it appends the region and returns `true`.  The
Engine is not an input of `enqueue` in the model, so no branch touches it. -/
theorem C4_enqueue_guards (s : HeadPoseDetection) (frame : Frame) (roi : Rect) :
    ((s.maxBatchSize ≤ s.enqueued_regions_.length ∨ roi.validIn frame = false) →
      s.enqueue frame roi = (false, s)) ∧
    (s.enqueued_regions_.length < s.maxBatchSize → roi.validIn frame = true →
      s.enqueue frame roi =
        (true, { s with enqueued_regions_ := s.enqueued_regions_ ++ [roi] })) := by
  constructor
  · intro h
    unfold HeadPoseDetection.enqueue
    rw [if_neg]
    rcases h with h | h
    · simp [Nat.not_lt.mpr h]
    · simp [h]
  · intro h1 h2
    unfold HeadPoseDetection.enqueue
    rw [if_pos]
    simp [h1, h2]

/-- Witness for C4: a full-buffer rejection and a successful append at
concrete inputs. -/
theorem C4_enqueue_guards_witness :
    (fullUnit.enqueue ⟨640, 480⟩ ⟨10, 10, 50, 50⟩ = (false, fullUnit)) ∧
    ((HeadPoseDetection.init.loadNetwork ⟨2⟩).enqueue ⟨640, 480⟩ ⟨10, 10, 50, 50⟩ =
      (true, { (HeadPoseDetection.init.loadNetwork ⟨2⟩) with
        enqueued_regions_ :=
          (HeadPoseDetection.init.loadNetwork ⟨2⟩).enqueued_regions_ ++
            [⟨10, 10, 50, 50⟩] })) :=
  ⟨(C4_enqueue_guards fullUnit ⟨640, 480⟩ ⟨10, 10, 50, 50⟩).1 (Or.inl (by decide)),
   (C4_enqueue_guards (HeadPoseDetection.init.loadNetwork ⟨2⟩) ⟨640, 480⟩
      ⟨10, 10, 50, 50⟩).2 (by decide) (by decide)⟩

/-- C5: with an empty pending-region set, or with no Model loaded,
`submitRequest` returns `false` and leaves the state unchanged (no request
becomes outstanding). -/
theorem C5_submit_guards (s : HeadPoseDetection) (engineAccepts : Bool)
    (h : s.enqueued_regions_ = [] ∨ s.valid_model_ = none) :
    s.submitRequest engineAccepts = (false, s) := by
  unfold HeadPoseDetection.submitRequest
  rcases h with h | h <;> simp [h]

/-- Witness for C5 at the freshly constructed unit. -/
theorem C5_submit_guards_witness :
    HeadPoseDetection.init.submitRequest true = (false, HeadPoseDetection.init) :=
  C5_submit_guards HeadPoseDetection.init true (Or.inl rfl)

/-- C8: the reads `getResultsLength` and `getLocationResult` do not modify the
state of the unit, and repeated calls (for the same in-range index) return
identical values. -/
theorem C8_reads_idempotent (s : HeadPoseDetection) (idx : Nat) :
    ((s.getResultsLength).2 = s) ∧
    ((s.getLocationResult idx).2 = s) ∧
    (((s.getResultsLength).2.getResultsLength).1 = (s.getResultsLength).1) ∧
    ((((s.getLocationResult idx).2).getLocationResult idx).1 =
      (s.getLocationResult idx).1) :=
  ⟨rfl, rfl, rfl, rfl⟩

/-- C10: `getResults` returns a snapshot of the result buffer by value, leaves
the state of the unit unchanged, and its i-th element is exactly the Result
that `getLocationResult i` views; since the call returns the unit unchanged,
no operation on the returned copy can affect `getResultsLength` or
`getLocationResult`. -/
theorem C10_getResults_by_value (s : HeadPoseDetection) (idx : Nat) :
    ((s.getResults).1 = s.results_) ∧
    ((s.getResults).2 = s) ∧
    (((s.getResults).1).get? idx = (s.getLocationResult idx).1) :=
  ⟨rfl, rfl, rfl⟩

/-- C6: with no outstanding request, `fetchResults` returns `false` and
leaves the unit — in particular the result buffer — unchanged; more generally
a failed `fetchResults` leaves the result buffer either unchanged or empty,
never partially populated, and a failed `submitRequest` leaves the state
unchanged. -/
theorem C6_failed_ops_leave_no_partial_buffer :
    (∀ (s : HeadPoseDetection) (o : Option (Nat → HeadPoseAngles)),
      s.request_outstanding_ = false → s.fetchResults o = (false, s)) ∧
    (∀ (s : HeadPoseDetection) (o : Option (Nat → HeadPoseAngles)),
      (s.fetchResults o).1 = false →
        ((s.fetchResults o).2).results_ = s.results_ ∨
          ((s.fetchResults o).2).results_ = []) ∧
    (∀ (s : HeadPoseDetection) (b : Bool),
      (s.submitRequest b).1 = false → (s.submitRequest b).2 = s) := by
  refine ⟨?_, ?_, ?_⟩
  · intro s o h
    unfold HeadPoseDetection.fetchResults
    simp [h]
  · intro s o h
    by_cases hr : s.request_outstanding_ = true
    · cases o with
      | none =>
          right
          unfold HeadPoseDetection.fetchResults
          simp [hr]
      | some blob =>
          exfalso
          unfold HeadPoseDetection.fetchResults at h
          simp [hr] at h
    · left
      unfold HeadPoseDetection.fetchResults
      simp [Bool.not_eq_true _ ▸ hr]
  · intro s b h
    by_cases hc : (s.enqueued_regions_.isEmpty || s.valid_model_.isNone || !b) = true
    · unfold HeadPoseDetection.submitRequest
      rw [if_pos hc]
    · exfalso
      unfold HeadPoseDetection.submitRequest at h
      rw [if_neg hc] at h
      exact Bool.true_eq_false ▸ h

/-- Witness for C6 at the freshly constructed unit. -/
theorem C6_failed_ops_leave_no_partial_buffer_witness :
    (HeadPoseDetection.init.fetchResults none = (false, HeadPoseDetection.init)) ∧
    (((HeadPoseDetection.init.fetchResults none).2).results_ =
        HeadPoseDetection.init.results_ ∨
      ((HeadPoseDetection.init.fetchResults none).2).results_ = []) ∧
    ((HeadPoseDetection.init.submitRequest true).2 = HeadPoseDetection.init) :=
  ⟨C6_failed_ops_leave_no_partial_buffer.1 HeadPoseDetection.init none rfl,
   C6_failed_ops_leave_no_partial_buffer.2.1 HeadPoseDetection.init none rfl,
   C6_failed_ops_leave_no_partial_buffer.2.2 HeadPoseDetection.init true rfl⟩

/-- C7: a timed-out `fetchResults` (an outstanding request for which the
Engine reports no output) returns `false`, leaves `getResultsLength()` at 0,
returns the unit to `Idle` (no pending regions, no outstanding request), and
a subsequent `enqueue` with a valid region succeeds. -/
theorem C7_timeout_returns_to_idle (s : HeadPoseDetection) (m : HeadPoseModel)
    (frame : Frame) (roi : Rect)
    (hout : s.request_outstanding_ = true) (hm : s.valid_model_ = some m)
    (hcap : 0 < m.maxBatchSize) (hroi : roi.validIn frame = true) :
    ((s.fetchResults none).1 = false) ∧
    ((((s.fetchResults none).2).getResultsLength).1 = 0) ∧
    (((s.fetchResults none).2).enqueued_regions_ = []) ∧
    (((s.fetchResults none).2).request_outstanding_ = false) ∧
    ((((s.fetchResults none).2).enqueue frame roi).1 = true) := by
  have hfetch : s.fetchResults none =
      (false, { s with
        request_outstanding_ := false
        enqueued_regions_ := []
        results_ := [] }) := by
    unfold HeadPoseDetection.fetchResults
    simp [hout]
  rw [hfetch]
  refine ⟨rfl, rfl, rfl, rfl, ?_⟩
  unfold HeadPoseDetection.enqueue
  rw [if_pos]
  have hmb : ({ s with
      request_outstanding_ := false
      enqueued_regions_ := []
      results_ := [] } : HeadPoseDetection).maxBatchSize = m.maxBatchSize := by
    unfold HeadPoseDetection.maxBatchSize
    simp [hm]
  simp [hmb, hcap, hroi]

/-- Witness for C7 at a concrete unit with an outstanding request. -/
theorem C7_timeout_returns_to_idle_witness :
    ((submittedUnit.fetchResults none).1 = false) ∧
    ((((submittedUnit.fetchResults none).2).getResultsLength).1 = 0) ∧
    (((submittedUnit.fetchResults none).2).enqueued_regions_ = []) ∧
    (((submittedUnit.fetchResults none).2).request_outstanding_ = false) ∧
    ((((submittedUnit.fetchResults none).2).enqueue ⟨640, 480⟩
        ⟨10, 10, 50, 50⟩).1 = true) :=
  C7_timeout_returns_to_idle submittedUnit ⟨2⟩ ⟨640, 480⟩ ⟨10, 10, 50, 50⟩
    rfl rfl (by decide) (by decide)

/-- C1: in a cycle in which every `enqueue` succeeds (valid regions, within
capacity, from an Idle state with a model loaded), `submitRequest` succeeds
and `fetchResults` succeeds, `getResultsLength()` equals the number of
regions enqueued since the last clear, and the location of
`getLocationResult(i)` equals the frame-space rectangle passed to the i-th
`enqueue` call (results correlate to regions by insertion order). -/
theorem C1_cycle_results_correlate (m : HeadPoseModel)
    (calls : List (Frame × Rect)) (blob : Nat → HeadPoseAngles)
    (s0 : HeadPoseDetection)
    (hm : s0.valid_model_ = some m) (hpend : s0.enqueued_regions_ = [])
    (hlen : calls.length ≤ m.maxBatchSize)
    (hval : ∀ c ∈ calls, (c.2).validIn c.1 = true)
    (hne : calls ≠ []) :
    (((s0.enqueueAll calls).submitRequest true).1 = true) ∧
    ((((s0.enqueueAll calls).submitRequest true).2.fetchResults
        (some blob)).1 = true) ∧
    (((((s0.enqueueAll calls).submitRequest true).2.fetchResults
        (some blob)).2.getResultsLength).1 = calls.length) ∧
    (∀ i : Nat, i < calls.length →
      (((((s0.enqueueAll calls).submitRequest true).2.fetchResults
          (some blob)).2.getLocationResult i).1).map HeadPoseResult.location_ =
        (calls.get? i).map Prod.snd) := by
  have hmbs : s0.maxBatchSize = m.maxBatchSize := by
    unfold HeadPoseDetection.maxBatchSize
    rw [hm]
  have hcap : s0.enqueued_regions_.length + calls.length ≤ s0.maxBatchSize := by
    rw [hmbs, hpend]
    simpa using hlen
  obtain ⟨he, hv, _ho, _hr⟩ := enqueueAll_append calls s0 hcap hval
  have he' : (s0.enqueueAll calls).enqueued_regions_ = calls.map Prod.snd := by
    rw [he, hpend]
    simp
  have hv' : (s0.enqueueAll calls).valid_model_ = some m := by rw [hv, hm]
  have hcond : ((s0.enqueueAll calls).enqueued_regions_.isEmpty ||
      (s0.enqueueAll calls).valid_model_.isNone || !true) = false := by
    simp [he', hv', hne]
  have hsub : (s0.enqueueAll calls).submitRequest true =
      (true, { s0.enqueueAll calls with request_outstanding_ := true }) := by
    unfold HeadPoseDetection.submitRequest
    rw [hcond]
    rfl
  rw [hsub]
  have hfet : (({ s0.enqueueAll calls with request_outstanding_ := true } :
      HeadPoseDetection).fetchResults (some blob)) =
      (true, { s0.enqueueAll calls with
        request_outstanding_ := false
        enqueued_regions_ := []
        results_ :=
          HeadPoseDetection.decodeAll blob 0
            (s0.enqueueAll calls).enqueued_regions_ }) := by
    unfold HeadPoseDetection.fetchResults
    rfl
  rw [hfet]
  refine ⟨rfl, rfl, ?_, ?_⟩
  · unfold HeadPoseDetection.getResultsLength
    simp [decodeAll_length, he']
  · intro i hi
    unfold HeadPoseDetection.getLocationResult
    simp only [decodeAll_get?, he', List.get?_map, Option.map_map]
    cases hc : calls.get? i with
    | none => rfl
    | some c => simp [Function.comp, decodeResult_location]

/-- Witness for C1: the concrete two-region cycle with regions `R1`, `R2` and
a constant engine blob. -/
theorem C1_cycle_results_correlate_witness :
    ((((HeadPoseDetection.init.loadNetwork ⟨2⟩).enqueueAll
        callsTwo).submitRequest true).1 = true) ∧
    (((((HeadPoseDetection.init.loadNetwork ⟨2⟩).enqueueAll
        callsTwo).submitRequest true).2.fetchResults (some blobConst)).1 = true) ∧
    ((((((HeadPoseDetection.init.loadNetwork ⟨2⟩).enqueueAll
        callsTwo).submitRequest true).2.fetchResults
        (some blobConst)).2.getResultsLength).1 = 2) ∧
    (((((((HeadPoseDetection.init.loadNetwork ⟨2⟩).enqueueAll
        callsTwo).submitRequest true).2.fetchResults
        (some blobConst)).2.getLocationResult 0).1).map HeadPoseResult.location_ =
      some rectR1) ∧
    (((((((HeadPoseDetection.init.loadNetwork ⟨2⟩).enqueueAll
        callsTwo).submitRequest true).2.fetchResults
        (some blobConst)).2.getLocationResult 1).1).map HeadPoseResult.location_ =
      some rectR2) := by
  have h := C1_cycle_results_correlate ⟨2⟩ callsTwo blobConst
    (HeadPoseDetection.init.loadNetwork ⟨2⟩) rfl rfl (by decide) (by decide)
    (by decide)
  exact ⟨h.1, h.2.1, (h.2.2.1).trans (by decide),
    (h.2.2.2 0 (by decide)).trans (by decide),
    (h.2.2.2 1 (by decide)).trans (by decide)⟩

/-- C3: a freshly constructed `HeadPoseResult` has all three angle attributes
equal to the sentinel −1; decoding overwrites them with the engine output
scalars; and in the two-region scenario, when the engine output angles are
not −1, no fetched result carries the sentinel. -/
theorem C3_sentinel_angles :
    (∀ r : Rect, (HeadPoseResult.ofLocation r).angle_y_ = -1 ∧
      (HeadPoseResult.ofLocation r).angle_p_ = -1 ∧
      (HeadPoseResult.ofLocation r).angle_r_ = -1) ∧
    (∀ (r : Rect) (a : HeadPoseAngles),
      (HeadPoseDetection.decodeResult r a).angle_y_ = a.y ∧
      (HeadPoseDetection.decodeResult r a).angle_p_ = a.p ∧
      (HeadPoseDetection.decodeResult r a).angle_r_ = a.r) ∧
    (∀ blob : Nat → HeadPoseAngles,
      ((blob 0).y ≠ -1 ∧ (blob 0).p ≠ -1 ∧ (blob 0).r ≠ -1) →
      ((blob 1).y ≠ -1 ∧ (blob 1).p ≠ -1 ∧ (blob 1).r ≠ -1) →
      ∀ res ∈ (twoRegionCycle blob).results_,
        res.angle_y_ ≠ -1 ∧ res.angle_p_ ≠ -1 ∧ res.angle_r_ ≠ -1) := by
  refine ⟨fun r => ⟨rfl, rfl, rfl⟩, fun r a => ⟨rfl, rfl, rfl⟩, ?_⟩
  intro blob h0 h1 res hres
  have hlist : (twoRegionCycle blob).results_ =
      [HeadPoseDetection.decodeResult rectR1 (blob 0),
       HeadPoseDetection.decodeResult rectR2 (blob 1)] := rfl
  rw [hlist] at hres
  simp only [List.mem_cons, List.not_mem_nil, or_false] at hres
  rcases hres with h | h
  · subst h
    exact ⟨h0.1, h0.2.1, h0.2.2⟩
  · subst h
    exact ⟨h1.1, h1.2.1, h1.2.2⟩

/-- Witness for C3: the two-region cycle with the constant blob (30, 20, 10)
yields a first result whose angles are not the sentinel. -/
theorem C3_sentinel_angles_witness :
    (HeadPoseDetection.decodeResult rectR1 (blobConst 0)).angle_y_ ≠ -1 ∧
    (HeadPoseDetection.decodeResult rectR1 (blobConst 0)).angle_p_ ≠ -1 ∧
    (HeadPoseDetection.decodeResult rectR1 (blobConst 0)).angle_r_ ≠ -1 :=
  C3_sentinel_angles.2.2 blobConst ⟨by decide, by decide, by decide⟩
    ⟨by decide, by decide, by decide⟩
    (HeadPoseDetection.decodeResult rectR1 (blobConst 0)) (by decide)

/-- Every reachable state keeps only validated (strictly positive extent)
regions in its pending list, and hence only results whose location has
nonnegative width and height in its result buffer. -/
theorem reach_region_result_invariant (s : HeadPoseDetection) (h : Reach s) :
    (∀ r ∈ s.enqueued_regions_, 0 < r.width ∧ 0 < r.height) ∧
    (∀ res ∈ s.results_,
      0 ≤ res.location_.width ∧ 0 ≤ res.location_.height) := by
  induction h with
  | init =>
      constructor <;> intro x hx <;> simp [HeadPoseDetection.init] at hx
  | loadNetwork s m _ ih => exact ih
  | enqueue s f r _ ih =>
      by_cases hc : (decide (s.enqueued_regions_.length < s.maxBatchSize) &&
          r.validIn f) = true
      · have hstep : (s.enqueue f r).2 =
            { s with enqueued_regions_ := s.enqueued_regions_ ++ [r] } := by
          unfold HeadPoseDetection.enqueue
          rw [if_pos hc]
        rw [hstep]
        refine ⟨?_, ih.2⟩
        intro x hx
        rcases List.mem_append.mp hx with hx | hx
        · exact ih.1 x hx
        · have hxr : x = r := by simpa using hx
          subst hxr
          have hc2 := hc
          rw [Bool.and_eq_true] at hc2
          have hval : x.validIn f = true := hc2.2
          unfold Rect.validIn at hval
          simp only [Bool.and_eq_true, decide_eq_true_eq] at hval
          exact ⟨hval.1.1.1.1.1, hval.1.1.1.1.2⟩
      · have hstep : (s.enqueue f r).2 = s := by
          unfold HeadPoseDetection.enqueue
          rw [if_neg hc]
        rw [hstep]
        exact ih
  | submitRequest s b _ ih =>
      have hstep : ((s.submitRequest b).2).enqueued_regions_ =
          s.enqueued_regions_ ∧ ((s.submitRequest b).2).results_ = s.results_ := by
        unfold HeadPoseDetection.submitRequest
        split <;> exact ⟨rfl, rfl⟩
      refine ⟨fun x hx => ih.1 x (hstep.1 ▸ hx),
        fun res hres => ih.2 res (hstep.2 ▸ hres)⟩
  | fetchResults s o _ ih =>
      by_cases hr : s.request_outstanding_ = true
      · cases o with
        | none =>
            have hstep : (s.fetchResults none).2 = { s with
                request_outstanding_ := false
                enqueued_regions_ := []
                results_ := [] } := by
              unfold HeadPoseDetection.fetchResults
              simp [hr]
            rw [hstep]
            constructor <;> intro x hx <;> simp at hx
        | some blob =>
            have hstep : (s.fetchResults (some blob)).2 = { s with
                request_outstanding_ := false
                enqueued_regions_ := []
                results_ :=
                  HeadPoseDetection.decodeAll blob 0 s.enqueued_regions_ } := by
              unfold HeadPoseDetection.fetchResults
              simp [hr]
            rw [hstep]
            constructor
            · intro x hx
              simp at hx
            · intro res hres
              have hmem := decodeAll_location_mem blob 0 s.enqueued_regions_ res hres
              have hpos := ih.1 _ hmem
              exact ⟨le_of_lt hpos.1, le_of_lt hpos.2⟩
      · have hstep : (s.fetchResults o).2 = s := by
          unfold HeadPoseDetection.fetchResults
          simp [Bool.not_eq_true _ ▸ hr]
        rw [hstep]
        exact ih

/-- C9: a freshly constructed Result carries exactly the rectangle supplied
to its constructor; decoding a Result from engine output keeps its location;
and in every reachable state of the unit, every buffered Result has a
location of nonnegative width and height. -/
theorem C9_location_immutable :
    (∀ r : Rect, (HeadPoseResult.ofLocation r).location_ = r) ∧
    (∀ (r : Rect) (a : HeadPoseAngles),
      (HeadPoseDetection.decodeResult r a).location_ = r) ∧
    (∀ s : HeadPoseDetection, Reach s →
      ∀ res ∈ s.results_,
        0 ≤ res.location_.width ∧ 0 ≤ res.location_.height) :=
  ⟨fun _ => rfl, fun _ _ => rfl,
   fun s h => (reach_region_result_invariant s h).2⟩

/-- Witness for C9: the reachable state after the concrete two-region cycle,
and its first buffered result. -/
theorem C9_location_immutable_witness :
    0 ≤ (HeadPoseDetection.decodeResult rectR1 (blobConst 0)).location_.width ∧
    0 ≤ (HeadPoseDetection.decodeResult rectR1 (blobConst 0)).location_.height :=
  C9_location_immutable.2.2 (twoRegionCycle blobConst)
    (Reach.fetchResults _ _ (Reach.submitRequest _ _ (Reach.enqueue _ _ _
      (Reach.enqueue _ _ _ (Reach.loadNetwork _ _ Reach.init)))))
    (HeadPoseDetection.decodeResult rectR1 (blobConst 0)) (by decide)

end DynamicVino
